import Mathlib

/-!
Verification of the Textract result-reconstruction core of the Policy
Reviewer pipeline (`app_streamlit.py`): the block index, text reducer,
key-value extractor, table reconstructor and line aggregator, embedded as
pure Lean functions over a `Block` record mirroring the dict-shaped
Textract block records.  Python list indexing (which admits negative
wrap-around and raises `IndexError` out of range) is embedded through
`Except`; all other operations in the source are total.
-/

namespace PolicyReviewer

/-- One entry of a block's `Relationships` list, carrying the dict keys
`Type` and `Ids`.  Missing keys are `none`. -/
structure Rel where
  type : Option String
  ids : Option (List String)
deriving DecidableEq, Repr

/-- A Textract block record.  Each field models the corresponding optional
dict key (`Id`, `BlockType`, `Text`, `SelectionStatus`, `EntityTypes`,
`RowIndex`, `ColumnIndex`, `Relationships`). -/
structure Block where
  id : Option String
  blockType : Option String
  text : Option String
  selectionStatus : Option String
  entityTypes : Option (List String)
  rowIndex : Option Int
  columnIndex : Option Int
  relationships : Option (List Rel)
deriving DecidableEq, Repr

/-- A block with every key absent; concrete examples override fields. -/
def emptyBlock : Block :=
  ⟨none, none, none, none, none, none, none, none⟩

/-- Python `str.strip()`: drop leading and trailing whitespace characters.
Structurally recursive (unlike `String.trim`) so that concrete instances
reduce in the kernel. -/
def pyStrip (s : String) : String :=
  ⟨((s.data.dropWhile Char.isWhitespace).reverse.dropWhile Char.isWhitespace).reverse⟩

/-- Python truthiness of an optional string: `b.get(k)` is truthy iff the
key is present and the string non-empty. -/
def truthyText : Option String → Bool
  | some s => !(s == "")
  | none => false

/-- Dict comprehension `{b["Id"]: b for b in blocks if "Id" in b}`:
last write wins, id-less blocks dropped. -/
def dictOf (blocks : List Block) : String → Option Block :=
  blocks.foldl
    (fun m b =>
      match b.id with
      | some i => fun k => if k = i then some b else m k
      | none => m)
    (fun _ => none)

/-- `_block_map` from the source: identifier → block lookup. -/
def _block_map (blocks : List Block) : String → Option Block :=
  dictOf blocks

/-- The token contributed by one CHILD id inside `_text_from_block`:
resolve it, then `WORD` with truthy text contributes the text,
`SELECTION_ELEMENT` contributes "[X]"/"[ ]", everything else nothing. -/
def childToken (id_map : String → Option Block) (cid : String) : Option String :=
  match id_map cid with
  | none => none
  | some child =>
    if child.blockType = some "WORD" ∧ truthyText child.text = true then
      some (child.text.getD "")
    else if child.blockType = some "SELECTION_ELEMENT" then
      if child.selectionStatus = some "SELECTED" then some "[X]" else some "[ ]"
    else none

/-- `_text_from_block` from the source: walk CHILD relationships, collect
tokens in order, join with a space, strip. -/
def _text_from_block (block : Block) (id_map : String → Option Block) : String :=
  let texts := (block.relationships.getD []).foldl
    (fun texts rel =>
      if rel.type = some "CHILD" then texts ++ (rel.ids.getD []).filterMap (childToken id_map)
      else texts)
    []
  pyStrip (String.intercalate " " texts)

/-- Inner loop of the KEY→VALUE resolution: scan `Ids` in order and return
the first identifier that resolves, if any (the `break` in the source). -/
def firstResolvable (m : String → Option Block) : List String → Option Block
  | [] => none
  | vid :: rest =>
    match m vid with
    | some b => some b
    | none => firstResolvable m rest

/-- The `val_text` loop of `parse_kv_pairs`: for each relationship entry of
type VALUE, if some target resolves in `value_by_id`, overwrite `val_text`
with that target's reduced text; otherwise keep the accumulator. -/
def valTextOf (id_map value_by_id : String → Option Block) (k : Block) : String :=
  (k.relationships.getD []).foldl
    (fun acc rel =>
      if rel.type = some "VALUE" then
        match firstResolvable value_by_id (rel.ids.getD []) with
        | some vblock => _text_from_block vblock id_map
        | none => acc
      else acc)
    ""

/-- KEY-role KEY_VALUE_SET blocks, in encounter order. -/
def kv_keys (all_blocks : List Block) : List Block :=
  all_blocks.filter
    (fun b => decide (b.blockType = some "KEY_VALUE_SET" ∧ "KEY" ∈ b.entityTypes.getD []))

/-- VALUE-role KEY_VALUE_SET blocks, in encounter order. -/
def kv_values (all_blocks : List Block) : List Block :=
  all_blocks.filter
    (fun b => decide (b.blockType = some "KEY_VALUE_SET" ∧ "VALUE" ∈ b.entityTypes.getD []))

/-- The `pairs` list built by the first loop of `parse_kv_pairs`, before
de-duplication: one `(key_text, val_text)` per KEY block whose key or
value text is non-empty. -/
def raw_pairs (all_blocks : List Block) : List (String × String) :=
  let id_map := _block_map all_blocks
  let value_by_id := dictOf (kv_values all_blocks)
  (kv_keys all_blocks).foldl
    (fun ps k =>
      let key_text := _text_from_block k id_map
      let val_text := valTextOf id_map value_by_id k
      if key_text ≠ "" ∨ val_text ≠ "" then ps ++ [(key_text, val_text)] else ps)
    []

/-- The de-duplication loop of `parse_kv_pairs`.  The source keeps a `seen`
set alongside `uniq`; since a signature is added to `seen` exactly when the
pair is appended to `uniq`, membership in `uniq` is the same test. -/
def dedupGo (uniq : List (String × String)) : List (String × String) → List (String × String)
  | [] => uniq
  | p :: rest => if p ∈ uniq then dedupGo uniq rest else dedupGo (uniq ++ [p]) rest

/-- De-duplicate preserving order of first occurrences. -/
def dedupKeepFirst (pairs : List (String × String)) : List (String × String) :=
  dedupGo [] pairs

/-- `parse_kv_pairs` from the source. -/
def parse_kv_pairs (all_blocks : List Block) : List (String × String) :=
  dedupKeepFirst (raw_pairs all_blocks)

/-- Python list index normalization: non-negative indices in range map to
themselves, negative indices wrap from the end, everything else is out of
range. -/
def pyIdx (n : Nat) (i : Int) : Option Nat :=
  if 0 ≤ i then (if i < (n : Int) then some i.toNat else none)
  else (if -i ≤ (n : Int) then some ((n : Int) + i).toNat else none)

/-- Python `xs[i]` read: `IndexError` when out of range. -/
def pyGet {α : Type} (xs : List α) (i : Int) : Except String α :=
  match pyIdx xs.length i with
  | some k =>
    match xs.get? k with
    | some a => Except.ok a
    | none => Except.error "list index out of range"
  | none => Except.error "list index out of range"

/-- Python `xs[i] = a` write: `IndexError` when out of range. -/
def pySet {α : Type} (xs : List α) (i : Int) (a : α) : Except String (List α) :=
  match pyIdx xs.length i with
  | some k => Except.ok (xs.set k a)
  | none => Except.error "list assignment index out of range"

/-- Python `max(...)` over a generator: error on an empty sequence. -/
def pyMax (xs : List Int) : Except String Int :=
  match xs with
  | [] => Except.error "max() arg is an empty sequence"
  | x :: rest => Except.ok (rest.foldl max x)

/-- The body of the per-cell placement loop of `parse_tables`:
`RowIndex`/`ColumnIndex` default to 1, the current content is read, and a
non-empty occupant is concatenated with " | " (then stripped) instead of
overwritten. -/
def placeCell (id_map : String → Option Block) (grid : List (List String)) (c : Block) :
    Except String (List (List String)) := do
  let r : Int := c.rowIndex.getD 1 - 1
  let cidx : Int := c.columnIndex.getD 1 - 1
  let txt := _text_from_block c id_map
  let row ← pyGet grid r
  let cur ← pyGet row cidx
  let newVal := if cur ≠ "" then pyStrip (cur ++ " | " ++ txt) else txt
  let row2 ← pySet row cidx newVal
  pySet grid r row2

/-- Grid construction for one table's cells: dimensions are the maxima of
`RowIndex`/`ColumnIndex` (defaulting to 0), the grid starts all-empty, and
cells are placed in order. -/
def buildGrid (id_map : String → Option Block) (cells : List Block) :
    Except String (List (List String)) := do
  let max_row ← pyMax (cells.map (fun c => c.rowIndex.getD 0))
  let max_col ← pyMax (cells.map (fun c => c.columnIndex.getD 0))
  let grid := List.replicate max_row.toNat (List.replicate max_col.toNat "")
  cells.foldlM (placeCell id_map) grid

/-- CELL blocks reachable from a TABLE block's CHILD relationship entries,
skipping unresolvable identifiers and non-CELL targets. -/
def resolveCells (id_map : String → Option Block) (tbl : Block) : List Block :=
  let cell_ids := (tbl.relationships.getD []).foldl
    (fun acc rel => if rel.type = some "CHILD" then acc ++ rel.ids.getD [] else acc)
    []
  cell_ids.filterMap
    (fun cid =>
      match id_map cid with
      | some b => if b.blockType = some "CELL" then some b else none
      | none => none)

/-- A pandas column label: the default `RangeIndex` labels are integers,
header promotion installs strings. -/
inductive ColLabel where
  | nat (n : Nat)
  | str (s : String)
deriving DecidableEq, Repr

/-- The observable part of a pandas DataFrame as `parse_tables` uses it:
column labels and string rows. -/
structure DataFrame where
  columns : List ColLabel
  rows : List (List String)
deriving DecidableEq, Repr

/-- `pd.DataFrame(grid)`: rows are the grid, columns are the default
integer labels 0, 1, ... (one per column of the uniform grid). -/
def mkDataFrame (grid : List (List String)) : DataFrame :=
  { columns := (List.range (grid.headD []).length).map ColLabel.nat, rows := grid }

/-- The header-promotion step of `parse_tables`: with more than one row and
a non-empty cell somewhere in the first row, the first row becomes the
column labels (empty entries synthesized as "Col" with the 1-based index)
and is removed from the data rows; otherwise the frame is unchanged. -/
def promote (df : DataFrame) : DataFrame :=
  match df.rows with
  | [] => df
  | first :: rest =>
    if 0 < rest.length ∧ first.any (fun x => decide (0 < x.length)) = true then
      { columns := first.enum.map
          (fun p => ColLabel.str (if p.2 ≠ "" then p.2 else "Col" ++ toString (p.1 + 1))),
        rows := rest }
    else df

/-- The body of the per-table loop of `parse_tables`: a table with no
resolvable CELL children is skipped (`continue`), otherwise its grid is
built, wrapped in a DataFrame, header-promoted and appended. -/
def tableStep (id_map : String → Option Block) (dfs : List DataFrame) (tbl : Block) :
    Except String (List DataFrame) := do
  let cells := resolveCells id_map tbl
  if cells = [] then pure dfs
  else do
    let grid ← buildGrid id_map cells
    pure (dfs ++ [promote (mkDataFrame grid)])

/-- `parse_tables` from the source: one promoted DataFrame per TABLE block
with at least one resolvable CELL child, in encounter order.  A Python
`IndexError` during grid placement propagates as `Except.error`. -/
def parse_tables (all_blocks : List Block) : Except String (List DataFrame) :=
  let id_map := _block_map all_blocks
  let tables := all_blocks.filter (fun b => decide (b.blockType = some "TABLE"))
  tables.foldlM (tableStep id_map) []

/-- `extract_lines` from the source: texts of LINE blocks with truthy text,
joined by newlines. -/
def extract_lines (all_blocks : List Block) : String :=
  let lines := (all_blocks.filter
      (fun b => decide (b.blockType = some "LINE") && truthyText b.text)).map
    (fun b => b.text.getD "")
  String.intercalate "\n" lines

/-- Grid position read used by the statements: row `i`, column `j`,
defaulting to "" out of range. -/
def posAt (g : List (List String)) (i j : Nat) : String :=
  (g.getD i []).getD j ""

deriving instance DecidableEq for Except

/- ---------- Definitions taken from the specification's words, for the
refinement-style claims; each is compared against the source embedding
above by a theorem. ---------- -/

/-- Modelled from the spec (4.3): the token a resolved CHILD target
contributes — its text for a WORD with non-empty text, "[X]" for a
SELECTED selection element, "[ ]" for any other selection element,
nothing for any other type. -/
def specToken (child : Block) : Option String :=
  if child.blockType = some "WORD" ∧ child.text.getD "" ≠ "" then
    some (child.text.getD "")
  else if child.blockType = some "SELECTION_ELEMENT" then
    some (if child.selectionStatus = some "SELECTED" then "[X]" else "[ ]")
  else none

/-- Modelled from the spec (4.3): the resolved targets of CHILD
relationship entries, in entry order, unresolvable identifiers skipped. -/
def specChildTargets (block : Block) (id_map : String → Option Block) : List Block :=
  ((block.relationships.getD []).filter (fun rel => decide (rel.type = some "CHILD"))).flatMap
    (fun rel => (rel.ids.getD []).filterMap id_map)

/-- Modelled from the spec (4.3): space-join of one token per resolved
CHILD target, trimmed of leading/trailing whitespace. -/
def reduce_text_spec (block : Block) (id_map : String → Option Block) : String :=
  pyStrip (String.intercalate " " ((specChildTargets block id_map).filterMap specToken))

/-- Modelled from the spec (4.6): newline-join of the text of every LINE
block with non-empty text, in encounter order, no de-duplication. -/
def aggregate_lines_spec (all_blocks : List Block) : String :=
  String.intercalate "\n"
    (all_blocks.filterMap
      (fun b =>
        if b.blockType = some "LINE" ∧ b.text.getD "" ≠ "" then some (b.text.getD "")
        else none))

/-- Modelled from the spec (4.4 step 4): keep the first occurrence of each
pair, dropping every later exactly-equal pair; the order of first
occurrences is preserved. -/
def firstOccurrences : List (String × String) → List (String × String)
  | [] => []
  | p :: rest => p :: firstOccurrences (rest.filter (fun q => decide (q ≠ p)))
termination_by l => l.length
decreasing_by
  simp only [List.length_cons]
  exact Nat.lt_succ_of_le (List.length_filter_le _ _)

/-- The value target the code actually uses (amended claim C1): the last
VALUE relationship entry that has a resolvable target, resolved to that
entry's first resolvable target. -/
def lastResolvableValue (value_by_id : String → Option Block) : List Rel → Option Block
  | [] => none
  | rel :: rest =>
    match lastResolvableValue value_by_id rest with
    | some b => some b
    | none =>
      if rel.type = some "VALUE" then firstResolvable value_by_id (rel.ids.getD [])
      else none

/-- Modelled from the spec (4.5 step 5): promoted header labels — the
first row's cells, empty cells synthesized as "Col" with the 1-based
index. -/
def specHeaderLabels (first : List String) : List ColLabel :=
  first.enum.map
    (fun p => if p.2 = "" then ColLabel.str ("Col" ++ toString (p.1 + 1)) else ColLabel.str p.2)

/- ---------- Concrete block collections used by the counterexamples,
code-bug evaluations and witnesses. ---------- -/

/-- A WORD block with the given id and text. -/
def wordBlock (i t : String) : Block :=
  { emptyBlock with
    id := some i, blockType := some "WORD", text := some t }

/-- A SELECTION_ELEMENT block with the given id and selection status. -/
def selBlock (i st : String) : Block :=
  { emptyBlock with
    id := some i, blockType := some "SELECTION_ELEMENT",
    selectionStatus := some st }

/-- A LINE block with the given text (no id needed by `extract_lines`). -/
def lineBlock (t : String) : Block :=
  { emptyBlock with blockType := some "LINE", text := some t }

/-- C5 example: a block whose CHILD entries are WORD "Hello",
SELECTION_ELEMENT SELECTED, WORD "World". -/
def c5Parent : Block :=
  { emptyBlock with
    id := some "b",
    relationships := some [⟨some "CHILD", some ["w1", "s1", "w2"]⟩] }

/-- C5 example block collection. -/
def c5Blocks : List Block :=
  [c5Parent, wordBlock "w1" "Hello", selBlock "s1" "SELECTED", wordBlock "w2" "World"]

/-- C1 counterexample: a KEY carrying two VALUE relationship entries, both
resolvable, pointing at VALUE blocks reducing to "One" and "Two". -/
def c1Key : Block :=
  { emptyBlock with
    id := some "k", blockType := some "KEY_VALUE_SET",
    entityTypes := some ["KEY"],
    relationships := some [⟨some "VALUE", some ["v1"]⟩, ⟨some "VALUE", some ["v2"]⟩] }

/-- C1 counterexample: first VALUE block (reduces to "One"). -/
def c1Val1 : Block :=
  { emptyBlock with
    id := some "v1", blockType := some "KEY_VALUE_SET",
    entityTypes := some ["VALUE"],
    relationships := some [⟨some "CHILD", some ["w1"]⟩] }

/-- C1 counterexample: second VALUE block (reduces to "Two"). -/
def c1Val2 : Block :=
  { emptyBlock with
    id := some "v2", blockType := some "KEY_VALUE_SET",
    entityTypes := some ["VALUE"],
    relationships := some [⟨some "CHILD", some ["w2"]⟩] }

/-- C1 counterexample block collection. -/
def c1Blocks : List Block :=
  [c1Key, c1Val1, c1Val2, wordBlock "w1" "One", wordBlock "w2" "Two"]

/-- C2 failing input: a TABLE whose only resolvable CELL child lacks both
RowIndex and ColumnIndex. -/
def c2Table : Block :=
  { emptyBlock with
    id := some "t", blockType := some "TABLE",
    relationships := some [⟨some "CHILD", some ["c1"]⟩] }

/-- C2 failing input: the index-less CELL. -/
def c2Cell : Block :=
  { emptyBlock with
    id := some "c1", blockType := some "CELL" }

/-- C2 failing block collection. -/
def c2Blocks : List Block := [c2Table, c2Cell]

/-- C3 counterexample: a TABLE with two CELL children at the same (1,1)
coordinate; the first reduces to "" (no children), the second to "B". -/
def c3Table : Block :=
  { emptyBlock with
    id := some "t", blockType := some "TABLE",
    relationships := some [⟨some "CHILD", some ["c1", "c2"]⟩] }

/-- C3 counterexample: first colliding CELL (empty reduced text). -/
def c3CellEmpty : Block :=
  { emptyBlock with
    id := some "c1", blockType := some "CELL",
    rowIndex := some 1, columnIndex := some 1 }

/-- C3 counterexample: second colliding CELL (reduces to "B"). -/
def c3CellB : Block :=
  { emptyBlock with
    id := some "c2", blockType := some "CELL",
    rowIndex := some 1, columnIndex := some 1,
    relationships := some [⟨some "CHILD", some ["w2"]⟩] }

/-- C3 counterexample block collection. -/
def c3Blocks : List Block := [c3Table, c3CellEmpty, c3CellB, wordBlock "w2" "B"]

/-- C3 witness cells: two colliding cells with non-empty texts "A", "B". -/
def c3CellA : Block :=
  { emptyBlock with
    id := some "c1", blockType := some "CELL",
    rowIndex := some 1, columnIndex := some 1,
    relationships := some [⟨some "CHILD", some ["w1"]⟩] }

/-- C3 witness word blocks. -/
def c3WordBlocks : List Block := [wordBlock "w1" "A", wordBlock "w2" "B"]

/-- C4 counterexample: a TABLE with a single (1,1) CELL reducing to "A". -/
def c4Table : Block :=
  { emptyBlock with
    id := some "t", blockType := some "TABLE",
    relationships := some [⟨some "CHILD", some ["c1"]⟩] }

/-- C4 counterexample: the single CELL. -/
def c4Cell : Block :=
  { emptyBlock with
    id := some "c1", blockType := some "CELL",
    rowIndex := some 1, columnIndex := some 1,
    relationships := some [⟨some "CHILD", some ["w1"]⟩] }

/-- C4 counterexample block collection. -/
def c4Blocks : List Block := [c4Table, c4Cell, wordBlock "w1" "A"]

/-- C6/C7/C8/C9 example cells: (1,1)="A", (1,2)="B", (2,1)="C". -/
def c6Cell1 : Block :=
  { emptyBlock with
    id := some "c1", blockType := some "CELL",
    rowIndex := some 1, columnIndex := some 1,
    relationships := some [⟨some "CHILD", some ["w1"]⟩] }

/-- C6 example cell (1,2). -/
def c6Cell2 : Block :=
  { emptyBlock with
    id := some "c2", blockType := some "CELL",
    rowIndex := some 1, columnIndex := some 2,
    relationships := some [⟨some "CHILD", some ["w2"]⟩] }

/-- C6 example cell (2,1). -/
def c6Cell3 : Block :=
  { emptyBlock with
    id := some "c3", blockType := some "CELL",
    rowIndex := some 2, columnIndex := some 1,
    relationships := some [⟨some "CHILD", some ["w3"]⟩] }

/-- C6 example TABLE block. -/
def c6Table : Block :=
  { emptyBlock with
    id := some "t", blockType := some "TABLE",
    relationships := some [⟨some "CHILD", some ["c1", "c2", "c3"]⟩] }

/-- C6 example block collection. -/
def c6Blocks : List Block :=
  [c6Table, c6Cell1, c6Cell2, c6Cell3,
   wordBlock "w1" "A", wordBlock "w2" "B", wordBlock "w3" "C"]

/-- C7 example: two KEY blocks both reducing to ("Name", "Jane"). -/
def c7Key1 : Block :=
  { emptyBlock with
    id := some "k1", blockType := some "KEY_VALUE_SET",
    entityTypes := some ["KEY"],
    relationships := some [⟨some "CHILD", some ["wn"]⟩, ⟨some "VALUE", some ["v1"]⟩] }

/-- C7 example: second KEY block with the same texts. -/
def c7Key2 : Block :=
  { emptyBlock with
    id := some "k2", blockType := some "KEY_VALUE_SET",
    entityTypes := some ["KEY"],
    relationships := some [⟨some "CHILD", some ["wn"]⟩, ⟨some "VALUE", some ["v1"]⟩] }

/-- C7 example: the shared VALUE block (reduces to "Jane"). -/
def c7Val : Block :=
  { emptyBlock with
    id := some "v1", blockType := some "KEY_VALUE_SET",
    entityTypes := some ["VALUE"],
    relationships := some [⟨some "CHILD", some ["wj"]⟩] }

/-- C7 example block collection. -/
def c7Blocks : List Block :=
  [c7Key1, c7Key2, c7Val, wordBlock "wn" "Name", wordBlock "wj" "Jane"]

/-- C8 witness: a KEY block with no VALUE relationship at all and key text
"Name". -/
def c8Key : Block :=
  { emptyBlock with
    id := some "k1", blockType := some "KEY_VALUE_SET",
    entityTypes := some ["KEY"],
    relationships := some [⟨some "CHILD", some ["w1"]⟩] }

/-- C8 witness block collection. -/
def c8Blocks : List Block := [c8Key, wordBlock "w1" "Name"]

/-- C9 example: LINE texts "A", "B", "A" with an index-less LINE and an
empty-text LINE interleaved (both must contribute nothing). -/
def c9Blocks : List Block :=
  [lineBlock "A", lineBlock "B", { emptyBlock with blockType := some "LINE" },
   lineBlock "", lineBlock "A"]

/- ---------- Theorems ---------- -/

theorem truthyText_iff (t : Option String) : truthyText t = true ↔ t.getD "" ≠ "" := by
  cases t <;> simp [truthyText]

theorem childToken_eq (m : String → Option Block) (cid : String) :
    childToken m cid = (m cid).bind specToken := by
  cases h : m cid with
  | none => simp [childToken, h]
  | some child =>
    simp only [childToken, h, specToken, Option.bind, truthyText_iff]
    split_ifs <;> rfl

theorem foldl_if_append {α β : Type} (p : α → Prop) [DecidablePred p] (f : α → List β) :
    ∀ (l : List α) (acc : List β),
      l.foldl (fun ts x => if p x then ts ++ f x else ts) acc
        = acc ++ (l.filter (fun x => decide (p x))).flatMap f := by
  intro l
  induction l with
  | nil => intro acc; simp
  | cons x rest ih =>
    intro acc
    by_cases hx : p x <;> simp [hx, ih, List.append_assoc]

theorem text_from_block_eq_spec (block : Block) (m : String → Option Block) :
    _text_from_block block m = reduce_text_spec block m := by
  have hf : (fun rel : Rel => (rel.ids.getD []).filterMap (childToken m))
      = fun rel : Rel => List.filterMap specToken ((rel.ids.getD []).filterMap m) := by
    funext rel
    rw [List.filterMap_filterMap]
    exact List.filterMap_congr (fun cid _ => childToken_eq m cid)
  simp only [_text_from_block, reduce_text_spec, specChildTargets,
    foldl_if_append (fun rel : Rel => rel.type = some "CHILD")
      (fun rel => (rel.ids.getD []).filterMap (childToken m)),
    List.nil_append, List.filterMap_flatMap, hf]

theorem extract_lines_eq_spec (all_blocks : List Block) :
    extract_lines all_blocks = aggregate_lines_spec all_blocks := by
  simp only [extract_lines, aggregate_lines_spec]
  congr 1
  induction all_blocks with
  | nil => rfl
  | cons b rest ih =>
    by_cases h1 : b.blockType = some "LINE"
    · by_cases h2 : b.text.getD "" ≠ ""
      · simp [List.filter_cons, List.filterMap_cons, h1, h2, ih,
          (truthyText_iff b.text).mpr h2]
      · have h2' : truthyText b.text = false :=
          Bool.eq_false_iff.mpr (fun hT => h2 ((truthyText_iff b.text).mp hT))
        simp only [not_not] at h2
        simp [List.filter_cons, List.filterMap_cons, h1, h2, h2', ih]
    · simp [List.filter_cons, List.filterMap_cons, h1, ih]


theorem valTextOf_foldl_eq (m value_by_id : String → Option Block) :
    ∀ (rels : List Rel) (acc : String),
      rels.foldl
        (fun acc rel =>
          if rel.type = some "VALUE" then
            match firstResolvable value_by_id (rel.ids.getD []) with
            | some vblock => _text_from_block vblock m
            | none => acc
          else acc)
        acc
      = match lastResolvableValue value_by_id rels with
        | some b => _text_from_block b m
        | none => acc := by
  intro rels
  induction rels with
  | nil => intro acc; rfl
  | cons rel rest ih =>
    intro acc
    simp only [List.foldl_cons, ih, lastResolvableValue]
    cases hrest : lastResolvableValue value_by_id rest with
    | some b => rfl
    | none =>
      by_cases hv : rel.type = some "VALUE"
      · simp only [hv, if_pos rfl]
        cases firstResolvable value_by_id (rel.ids.getD []) <;> rfl
      · simp [hv]

theorem valTextOf_eq_last (m value_by_id : String → Option Block) (k : Block) :
    valTextOf m value_by_id k
      = ((lastResolvableValue value_by_id (k.relationships.getD [])).map
          (fun b => _text_from_block b m)).getD "" := by
  rw [valTextOf, valTextOf_foldl_eq]
  cases lastResolvableValue value_by_id (k.relationships.getD []) <;> rfl

-- C7 lemmas
theorem fo_cons (p : String × String) (l : List (String × String)) :
    firstOccurrences (p :: l) = p :: firstOccurrences (l.filter (fun q => decide (q ≠ p))) := by
  rw [firstOccurrences]

theorem filter_notMem_append (uniq : List (String × String)) (p : String × String) :
    ∀ l : List (String × String),
      l.filter (fun q => decide (q ∉ uniq ++ [p]))
        = (l.filter (fun q => decide (q ∉ uniq))).filter (fun q => decide (q ≠ p)) := by
  intro l
  rw [List.filter_filter]
  apply List.filter_congr
  intro q _
  rw [← Bool.decide_and, decide_eq_decide]
  simp [List.mem_append, not_or, and_comm]

theorem dedupGo_eq_firstOccurrences :
    ∀ (l uniq : List (String × String)),
      dedupGo uniq l = uniq ++ firstOccurrences (l.filter (fun q => decide (q ∉ uniq))) := by
  intro l
  induction l with
  | nil => intro uniq; simp [dedupGo, firstOccurrences]
  | cons p rest ih =>
    intro uniq
    by_cases hp : p ∈ uniq
    · simp only [dedupGo, if_pos hp, ih, List.filter_cons]
      have : decide (p ∉ uniq) = false := by simp [hp]
      simp [this]
    · have hd : decide (p ∉ uniq) = true := by simp [hp]
      simp only [dedupGo, if_neg hp]
      rw [ih (uniq ++ [p]), filter_notMem_append]
      have hfc : List.filter (fun q => decide (q ∉ uniq)) (p :: rest)
          = p :: List.filter (fun q => decide (q ∉ uniq)) rest := by
        simp only [List.filter_cons, hd, if_pos]
      rw [hfc, fo_cons, List.append_assoc, List.singleton_append]

theorem dedupKeepFirst_eq_firstOccurrences (l : List (String × String)) :
    dedupKeepFirst l = firstOccurrences l := by
  rw [dedupKeepFirst, dedupGo_eq_firstOccurrences]
  have : l.filter (fun q => decide (q ∉ ([] : List (String × String)))) = l := by
    apply List.filter_eq_self.mpr
    intro q _
    simp
  simp [this]

theorem dedupGo_nodup :
    ∀ (l uniq : List (String × String)), uniq.Nodup → (dedupGo uniq l).Nodup := by
  intro l
  induction l with
  | nil => intro uniq h; exact h
  | cons p rest ih =>
    intro uniq h
    by_cases hp : p ∈ uniq
    · simpa [dedupGo, hp] using ih uniq h
    · have : (uniq ++ [p]).Nodup := by
        simp [List.nodup_append, h, hp]
      simpa [dedupGo, hp] using ih (uniq ++ [p]) this

theorem mem_dedupGo :
    ∀ (l uniq : List (String × String)) (x : String × String),
      x ∈ uniq ∨ x ∈ l → x ∈ dedupGo uniq l := by
  intro l
  induction l with
  | nil => intro uniq x h; simpa [dedupGo] using h.resolve_right (by simp)
  | cons p rest ih =>
    intro uniq x h
    by_cases hp : p ∈ uniq
    · simp only [dedupGo, if_pos hp]
      apply ih
      rcases h with h | h
      · exact Or.inl h
      · rcases List.mem_cons.mp h with rfl | h
        · exact Or.inl hp
        · exact Or.inr h
    · simp only [dedupGo, if_neg hp]
      apply ih
      rcases h with h | h
      · exact Or.inl (List.mem_append_left _ h)
      · rcases List.mem_cons.mp h with rfl | h
        · exact Or.inl (by simp)
        · exact Or.inr h


-- C8 support lemmas

theorem lastResolvableValue_none (vb : String → Option Block) :
    ∀ rels : List Rel,
      (∀ rel ∈ rels, rel.type = some "VALUE" → firstResolvable vb (rel.ids.getD []) = none) →
      lastResolvableValue vb rels = none := by
  intro rels
  induction rels with
  | nil => intro _; rfl
  | cons rel rest ih =>
    intro h
    have hrest := ih (fun r hr => h r (List.mem_cons_of_mem _ hr))
    simp only [lastResolvableValue, hrest]
    by_cases hv : rel.type = some "VALUE"
    · simp [hv, h rel (List.mem_cons_self _ _) hv]
    · simp [hv]

theorem valTextOf_empty (m vb : String → Option Block) (k : Block)
    (h : ∀ rel ∈ k.relationships.getD [], rel.type = some "VALUE" →
      firstResolvable vb (rel.ids.getD []) = none) :
    valTextOf m vb k = "" := by
  rw [valTextOf_eq_last, lastResolvableValue_none vb _ h]
  rfl

theorem foldl_emit_sub {α : Type} (P : α → Prop) [DecidablePred P] (g : α → String × String) :
    ∀ (ks : List α) (acc : List (String × String)) (x : String × String), x ∈ acc →
      x ∈ ks.foldl (fun ps k => if P k then ps ++ [g k] else ps) acc := by
  intro ks
  induction ks with
  | nil => intro acc x hx; simpa using hx
  | cons k rest ih =>
    intro acc x hx
    simp only [List.foldl_cons]
    by_cases hk : P k
    · exact ih _ _ (by simp [hk, List.mem_append_left _ hx])
    · simpa [hk] using ih _ _ hx

theorem mem_foldl_emit {α : Type} (P : α → Prop) [DecidablePred P] (g : α → String × String) :
    ∀ (ks : List α) (acc : List (String × String)) (k : α), k ∈ ks → P k →
      g k ∈ ks.foldl (fun ps k => if P k then ps ++ [g k] else ps) acc := by
  intro ks
  induction ks with
  | nil => intro acc k hk; exact absurd hk (by simp)
  | cons k0 rest ih =>
    intro acc k hk hP
    rcases List.mem_cons.mp hk with rfl | hk
    · simp only [List.foldl_cons, if_pos hP]
      exact foldl_emit_sub P g rest _ _ (by simp)
    · simp only [List.foldl_cons]
      by_cases h0 : P k0 <;> simp only [h0, if_pos, if_neg, not_false_iff] <;> exact ih _ _ hk hP

theorem mem_raw_pairs (all_blocks : List Block) (k : Block)
    (hk : k ∈ kv_keys all_blocks)
    (hcond : _text_from_block k (_block_map all_blocks) ≠ ""
      ∨ valTextOf (_block_map all_blocks) (dictOf (kv_values all_blocks)) k ≠ "") :
    (_text_from_block k (_block_map all_blocks),
      valTextOf (_block_map all_blocks) (dictOf (kv_values all_blocks)) k)
      ∈ raw_pairs all_blocks :=
  mem_foldl_emit
    (fun k => _text_from_block k (_block_map all_blocks) ≠ ""
      ∨ valTextOf (_block_map all_blocks) (dictOf (kv_values all_blocks)) k ≠ "")
    (fun k => (_text_from_block k (_block_map all_blocks),
      valTextOf (_block_map all_blocks) (dictOf (kv_values all_blocks)) k))
    (kv_keys all_blocks) [] k hk hcond
theorem except_bind_ok {ε α β : Type} (a : α) (f : α → Except ε β) :
    (Except.ok a >>= f : Except ε β) = f a := rfl

theorem except_bind_error {ε α β : Type} (e : ε) (f : α → Except ε β) :
    (Except.error e >>= f : Except ε β) = Except.error e := rfl

theorem except_pure_eq {ε α : Type} (a : α) : (pure a : Except ε α) = Except.ok a := rfl

theorem posAt_replicate (R C i j : Nat) :
    posAt (List.replicate R (List.replicate C "")) i j = "" := by
  unfold posAt
  simp only [List.getD_eq_getElem?_getD]
  rw [List.getElem?_replicate]
  split
  · simp only [Option.getD_some]
    rw [List.getElem?_replicate]
    split <;> rfl
  · rfl

theorem posAt_set_self (g : List (List String)) (r j : Nat) (row : List String) (v : String)
    (hr : r < g.length) (hj : j < row.length) :
    posAt (g.set r (row.set j v)) r j = v := by
  unfold posAt
  simp only [List.getD_eq_getElem?_getD]
  rw [List.getElem?_set_self hr, Option.getD_some, List.getElem?_set_self hj, Option.getD_some]

theorem posAt_set_ne (g : List (List String)) (r j : Nat) (row : List String) (v : String)
    (hr : r < g.length) (hrow : g[r]? = some row) (i j2 : Nat) (hne : ¬(i = r ∧ j2 = j)) :
    posAt (g.set r (row.set j v)) i j2 = posAt g i j2 := by
  unfold posAt
  simp only [List.getD_eq_getElem?_getD]
  by_cases hi : i = r
  · subst hi
    have hj2 : j ≠ j2 := fun h => hne ⟨rfl, h.symm⟩
    rw [List.getElem?_set_self hr, Option.getD_some, hrow, Option.getD_some,
      List.getElem?_set_ne hj2]
  · rw [List.getElem?_set_ne (fun h => hi h.symm)]

theorem placeCell_ok (m : String → Option Block) (g : List (List String)) (c : Block)
    (r j : Nat) (row : List String)
    (hcr : c.rowIndex = some ((r : Int) + 1)) (hcc : c.columnIndex = some ((j : Int) + 1))
    (hr : r < g.length) (hrow : g[r]? = some row) (hj : j < row.length) :
    placeCell m g c = Except.ok (g.set r (row.set j
      (if row.getD j "" ≠ "" then pyStrip (row.getD j "" ++ " | " ++ _text_from_block c m)
       else _text_from_block c m))) := by
  have hr1 : c.rowIndex.getD 1 - 1 = (r : Int) := by rw [hcr]; simp
  have hc1 : c.columnIndex.getD 1 - 1 = (j : Int) := by rw [hcc]; simp
  have hget1 : pyGet g ((r : Nat) : Int) = Except.ok row := by
    unfold pyGet pyIdx
    rw [if_pos (Int.natCast_nonneg r), if_pos (by exact_mod_cast hr)]
    simp only [Int.toNat_natCast, List.get?_eq_getElem?, hrow]
  have hget2 : pyGet row ((j : Nat) : Int) = Except.ok (row.getD j "") := by
    unfold pyGet pyIdx
    rw [if_pos (Int.natCast_nonneg j), if_pos (by exact_mod_cast hj)]
    simp only [Int.toNat_natCast, List.get?_eq_getElem?, List.getElem?_eq_getElem hj,
      List.getD_eq_getElem?_getD, Option.getD_some]
  have hset1 : ∀ v : String, pySet row ((j : Nat) : Int) v = Except.ok (row.set j v) := by
    intro v
    unfold pySet pyIdx
    rw [if_pos (Int.natCast_nonneg j), if_pos (by exact_mod_cast hj)]
    simp only [Int.toNat_natCast]
  have hset2 : ∀ row2 : List String, pySet g ((r : Nat) : Int) row2 = Except.ok (g.set r row2) := by
    intro row2
    unfold pySet pyIdx
    rw [if_pos (Int.natCast_nonneg r), if_pos (by exact_mod_cast hr)]
    simp only [Int.toNat_natCast]
  unfold placeCell
  rw [hr1, hc1]
  simp only [hget1, hget2, hset1, hset2, except_bind_ok]
theorem foldPlace_ok (m : String → Option Block) (R C : Nat) :
    ∀ (todo : List Block) (g : List (List String)),
      g.length = R →
      (∀ row ∈ g, row.length = C) →
      (∀ c ∈ todo, ∃ r j : Nat, c.rowIndex = some ((r : Int) + 1)
        ∧ c.columnIndex = some ((j : Int) + 1) ∧ r < R ∧ j < C) →
      (∀ c ∈ todo, ∀ r j : Nat, c.rowIndex = some ((r : Int) + 1) →
        c.columnIndex = some ((j : Int) + 1) → posAt g r j = "") →
      List.Pairwise (fun a b => ¬(a.rowIndex = b.rowIndex ∧ a.columnIndex = b.columnIndex)) todo →
      ∃ g2, List.foldlM (placeCell m) g todo = Except.ok g2
        ∧ g2.length = R
        ∧ (∀ row ∈ g2, row.length = C)
        ∧ (∀ c ∈ todo, ∀ r j : Nat, c.rowIndex = some ((r : Int) + 1) →
            c.columnIndex = some ((j : Int) + 1) → posAt g2 r j = _text_from_block c m)
        ∧ (∀ i j : Nat, (∀ c ∈ todo, ¬(c.rowIndex = some ((i : Int) + 1)
            ∧ c.columnIndex = some ((j : Int) + 1))) → posAt g2 i j = posAt g i j) := by
  intro todo
  induction todo with
  | nil =>
    intro g hlen hrows _ _ _
    exact ⟨g, rfl, hlen, hrows, by simp, fun i j _ => rfl⟩
  | cons c rest ih =>
    intro g hlen hrows hvalid hempty hpw
    obtain ⟨r, j, hcr, hcc, hrR, hjC⟩ := hvalid c (List.mem_cons_self _ _)
    have hr : r < g.length := by rw [hlen]; exact hrR
    have hrow : g[r]? = some g[r] := List.getElem?_eq_getElem hr
    have hrowlen : (g[r]).length = C := hrows _ (List.getElem_mem hr)
    have hj : j < (g[r]).length := by rw [hrowlen]; exact hjC
    have hcur : (g[r]).getD j "" = "" := by
      have h0 := hempty c (List.mem_cons_self _ _) r j hcr hcc
      unfold posAt at h0
      rw [List.getD_eq_getElem?_getD (l := g), hrow, Option.getD_some] at h0
      exact h0
    have hplace := placeCell_ok m g c r j g[r] hcr hcc hr hrow hj
    rw [hcur, if_neg (by simp)] at hplace
    have hlen1 : (g.set r ((g[r]).set j (_text_from_block c m))).length = R := by
      rw [List.length_set, hlen]
    have hrows1 : ∀ row ∈ g.set r ((g[r]).set j (_text_from_block c m)), row.length = C := by
      intro row hmem
      rcases List.mem_or_eq_of_mem_set hmem with h | h
      · exact hrows _ h
      · rw [h, List.length_set]; exact hrowlen
    have hposself : posAt (g.set r ((g[r]).set j (_text_from_block c m))) r j
        = _text_from_block c m := posAt_set_self g r j (g[r]) _ hr hj
    have hposother : ∀ i j2 : Nat, ¬(i = r ∧ j2 = j) →
        posAt (g.set r ((g[r]).set j (_text_from_block c m))) i j2 = posAt g i j2 :=
      fun i j2 hne => posAt_set_ne g r j (g[r]) _ hr hrow i j2 hne
    have hpwc := (List.pairwise_cons.mp hpw).1
    have hpwrest := (List.pairwise_cons.mp hpw).2
    have hcoordne : ∀ c2 ∈ rest, ∀ r2 j2 : Nat, c2.rowIndex = some ((r2 : Int) + 1) →
        c2.columnIndex = some ((j2 : Int) + 1) → ¬(r2 = r ∧ j2 = j) := by
      intro c2 hc2 r2 j2 h1 h2 hand
      obtain ⟨rfl, rfl⟩ := hand
      exact hpwc c2 hc2 ⟨hcr.trans h1.symm, hcc.trans h2.symm⟩
    have hempty1 : ∀ c2 ∈ rest, ∀ r2 j2 : Nat, c2.rowIndex = some ((r2 : Int) + 1) →
        c2.columnIndex = some ((j2 : Int) + 1) →
        posAt (g.set r ((g[r]).set j (_text_from_block c m))) r2 j2 = "" := by
      intro c2 hc2 r2 j2 h1 h2
      rw [hposother r2 j2 (hcoordne c2 hc2 r2 j2 h1 h2)]
      exact hempty c2 (List.mem_cons_of_mem _ hc2) r2 j2 h1 h2
    obtain ⟨g2, hfold, hlen2, hrows2, hplace2, huntouched2⟩ :=
      ih (g.set r ((g[r]).set j (_text_from_block c m))) hlen1 hrows1
        (fun c2 hc2 => hvalid c2 (List.mem_cons_of_mem _ hc2)) hempty1 hpwrest
    refine ⟨g2, ?_, hlen2, hrows2, ?_, ?_⟩
    · rw [List.foldlM_cons, hplace, except_bind_ok]
      exact hfold
    · intro c2 hc2 r2 j2 h1 h2
      rcases List.mem_cons.mp hc2 with rfl | hc2
      · have hr2 : r2 = r := by
          have h3 : ((r2 : Int) + 1) = ((r : Int) + 1) := Option.some.inj (h1.symm.trans hcr)
          omega
        have hj2 : j2 = j := by
          have h3 : ((j2 : Int) + 1) = ((j : Int) + 1) := Option.some.inj (h2.symm.trans hcc)
          omega
        subst hr2; subst hj2
        have hrestne : ∀ c3 ∈ rest, ¬(c3.rowIndex = some ((r2 : Int) + 1)
            ∧ c3.columnIndex = some ((j2 : Int) + 1)) := by
          intro c3 hc3 hand
          exact hpwc c3 hc3 ⟨hcr.trans hand.1.symm, hcc.trans hand.2.symm⟩
        rw [huntouched2 r2 j2 hrestne]
        exact hposself
      · exact hplace2 c2 hc2 r2 j2 h1 h2
    · intro i j2 hnone
      rw [huntouched2 i j2 (fun c2 hc2 => hnone c2 (List.mem_cons_of_mem _ hc2))]
      apply hposother
      intro hand
      obtain ⟨rfl, rfl⟩ := hand
      exact hnone c (List.mem_cons_self _ _) ⟨hcr, hcc⟩
theorem foldl_max_le : ∀ (l : List Int) (a x : Int), (x = a ∨ x ∈ l) → x ≤ l.foldl max a := by
  intro l
  induction l with
  | nil =>
    intro a x h
    rcases h with rfl | h
    · exact le_refl x
    · simp at h
  | cons y rest ih =>
    intro a x h
    simp only [List.foldl_cons]
    rcases h with rfl | h
    · exact le_trans (le_max_left x y) (ih (max x y) _ (Or.inl rfl))
    · rcases List.mem_cons.mp h with rfl | h
      · exact le_trans (le_max_right a x) (ih (max a x) _ (Or.inl rfl))
      · exact ih _ _ (Or.inr h)

theorem pyMax_ok (xs : List Int) (h : xs ≠ []) :
    ∃ M, pyMax xs = Except.ok M ∧ ∀ x ∈ xs, x ≤ M := by
  cases xs with
  | nil => exact absurd rfl h
  | cons x rest =>
    refine ⟨rest.foldl max x, rfl, ?_⟩
    intro y hy
    rcases List.mem_cons.mp hy with rfl | hy
    · exact foldl_max_le rest _ _ (Or.inl rfl)
    · exact foldl_max_le rest _ _ (Or.inr hy)

theorem buildGrid_ok (m : String → Option Block) (cells : List Block)
    (hne : cells ≠ [])
    (hvalid : ∀ c ∈ cells, ∃ r j : Nat, c.rowIndex = some ((r : Int) + 1)
      ∧ c.columnIndex = some ((j : Int) + 1))
    (hpw : List.Pairwise
      (fun a b => ¬(a.rowIndex = b.rowIndex ∧ a.columnIndex = b.columnIndex)) cells) :
    ∃ g R C, pyMax (cells.map (fun c => c.rowIndex.getD 0)) = Except.ok R
      ∧ pyMax (cells.map (fun c => c.columnIndex.getD 0)) = Except.ok C
      ∧ buildGrid m cells = Except.ok g
      ∧ g.length = R.toNat
      ∧ (∀ row ∈ g, row.length = C.toNat)
      ∧ (∀ c ∈ cells, ∀ r j : Nat, c.rowIndex = some ((r : Int) + 1) →
          c.columnIndex = some ((j : Int) + 1) → posAt g r j = _text_from_block c m)
      ∧ (∀ i j : Nat, (∀ c ∈ cells, ¬(c.rowIndex = some ((i : Int) + 1)
          ∧ c.columnIndex = some ((j : Int) + 1))) → posAt g i j = "") := by
  obtain ⟨R, hmaxR, hleR⟩ := pyMax_ok (cells.map (fun c => c.rowIndex.getD 0))
    (fun hmap => hne (by simpa using hmap))
  obtain ⟨C, hmaxC, hleC⟩ := pyMax_ok (cells.map (fun c => c.columnIndex.getD 0))
    (fun hmap => hne (by simpa using hmap))
  have hvalid2 : ∀ c ∈ cells, ∃ r j : Nat, c.rowIndex = some ((r : Int) + 1)
      ∧ c.columnIndex = some ((j : Int) + 1) ∧ r < R.toNat ∧ j < C.toNat := by
    intro c hc
    obtain ⟨r, j, h1, h2⟩ := hvalid c hc
    have hrle : ((r : Int) + 1) ≤ R := by
      have h3 := hleR (c.rowIndex.getD 0) (List.mem_map_of_mem _ hc)
      rw [h1, Option.getD_some] at h3
      exact h3
    have hjle : ((j : Int) + 1) ≤ C := by
      have h3 := hleC (c.columnIndex.getD 0) (List.mem_map_of_mem _ hc)
      rw [h2, Option.getD_some] at h3
      exact h3
    exact ⟨r, j, h1, h2, by omega, by omega⟩
  obtain ⟨g2, hfold, hlen2, hrows2, hplace2, huntouched2⟩ :=
    foldPlace_ok m R.toNat C.toNat cells
      (List.replicate R.toNat (List.replicate C.toNat ""))
      (List.length_replicate _ _)
      (fun row hrow => by
        rw [List.eq_of_mem_replicate hrow]
        exact List.length_replicate _ _)
      hvalid2
      (fun c hc r j h1 h2 => posAt_replicate _ _ _ _)
      hpw
  refine ⟨g2, R, C, hmaxR, hmaxC, ?_, hlen2, hrows2, hplace2, ?_⟩
  · unfold buildGrid
    rw [hmaxR, except_bind_ok, hmaxC, except_bind_ok]
    exact hfold
  · intro i j hnone
    rw [huntouched2 i j hnone]
    exact posAt_replicate _ _ _ _
theorem foldl_tableStep_len (idm : String → Option Block) :
    ∀ (tables : List Block) (acc dfs : List DataFrame),
      tables.foldlM (tableStep idm) acc = Except.ok dfs →
      dfs.length = acc.length
        + (tables.filter (fun t => decide (resolveCells idm t ≠ []))).length := by
  intro tables
  induction tables with
  | nil =>
    intro acc dfs h
    rw [List.foldlM_nil, except_pure_eq] at h
    have h2 : acc = dfs := Except.ok.inj h
    simp [← h2]
  | cons tbl rest ih =>
    intro acc dfs h
    rw [List.foldlM_cons] at h
    by_cases hc : resolveCells idm tbl = []
    · rw [show tableStep idm acc tbl = Except.ok acc from by
        simp [tableStep, hc, except_pure_eq], except_bind_ok] at h
      simp [List.filter_cons, hc, ih acc dfs h]
    · cases hb : buildGrid idm (resolveCells idm tbl) with
      | error e =>
        rw [show tableStep idm acc tbl = Except.error e from by
          simp [tableStep, hc, hb, except_bind_error], except_bind_error] at h
        exact absurd h (by simp)
      | ok grid =>
        rw [show tableStep idm acc tbl = Except.ok (acc ++ [promote (mkDataFrame grid)]) from by
          simp [tableStep, hc, hb, except_bind_ok, except_pure_eq], except_bind_ok] at h
        have h3 := ih _ dfs h
        rw [List.filter_cons, if_pos (decide_eq_true hc)]
        simp only [List.length_append, List.length_singleton] at h3
        simp only [List.length_cons]
        omega

theorem parse_tables_len (all_blocks : List Block) (dfs : List DataFrame)
    (h : parse_tables all_blocks = Except.ok dfs) :
    dfs.length = ((all_blocks.filter (fun b => decide (b.blockType = some "TABLE"))).filter
      (fun t => decide (resolveCells (_block_map all_blocks) t ≠ []))).length := by
  have h2 := foldl_tableStep_len (_block_map all_blocks)
    (all_blocks.filter (fun b => decide (b.blockType = some "TABLE"))) [] dfs h
  simpa using h2

/-- Claim C3 (amended): when two cells of a table collide at the same
coordinate, the grid cell is the stripped " | "-concatenation of the two
reduced texts only if the earlier text is non-empty; an empty earlier text
is overwritten by the later text with no separator. -/
theorem c3_collision_concat (m : String → Option Block) (c1 c2 : Block) (r j : Nat)
    (h1r : c1.rowIndex = some ((r : Int) + 1)) (h1c : c1.columnIndex = some ((j : Int) + 1))
    (h2r : c2.rowIndex = some ((r : Int) + 1)) (h2c : c2.columnIndex = some ((j : Int) + 1)) :
    ∃ g, buildGrid m [c1, c2] = Except.ok g
      ∧ posAt g r j = (if _text_from_block c1 m ≠ ""
          then pyStrip (_text_from_block c1 m ++ " | " ++ _text_from_block c2 m)
          else _text_from_block c2 m) := by
  have hmaxR : pyMax ([c1, c2].map (fun c => c.rowIndex.getD 0)) = Except.ok ((r : Int) + 1) := by
    simp [pyMax, h1r, h2r]
  have hmaxC : pyMax ([c1, c2].map (fun c => c.columnIndex.getD 0)) = Except.ok ((j : Int) + 1) := by
    simp [pyMax, h1c, h2c]
  have htnR : ((r : Int) + 1).toNat = r + 1 := by omega
  have htnC : ((j : Int) + 1).toNat = j + 1 := by omega
  have h0len : (List.replicate (r + 1) (List.replicate (j + 1) "")).length = r + 1 :=
    List.length_replicate _ _
  have hrow0 : (List.replicate (r + 1) (List.replicate (j + 1) ""))[r]?
      = some (List.replicate (j + 1) "") := by
    rw [List.getElem?_replicate, if_pos (Nat.lt_succ_self r)]
  have hp1 := placeCell_ok m (List.replicate (r + 1) (List.replicate (j + 1) "")) c1 r j
    (List.replicate (j + 1) "") h1r h1c (by rw [h0len]; omega) hrow0
    (by rw [List.length_replicate]; omega)
  have hcur0 : (List.replicate (j + 1) "").getD j "" = "" := by
    simp [List.getD_eq_getElem?_getD, List.getElem?_replicate, Nat.lt_succ_self]
  rw [hcur0, if_neg (by simp)] at hp1
  have hg1len : ((List.replicate (r + 1) (List.replicate (j + 1) "")).set r
      ((List.replicate (j + 1) "").set j (_text_from_block c1 m))).length = r + 1 := by
    rw [List.length_set, h0len]
  have hrow1 : ((List.replicate (r + 1) (List.replicate (j + 1) "")).set r
      ((List.replicate (j + 1) "").set j (_text_from_block c1 m)))[r]?
      = some ((List.replicate (j + 1) "").set j (_text_from_block c1 m)) :=
    List.getElem?_set_self (by rw [h0len]; omega)
  have hrow1len : ((List.replicate (j + 1) "").set j (_text_from_block c1 m)).length = j + 1 := by
    rw [List.length_set, List.length_replicate]
  have hcur1 : ((List.replicate (j + 1) "").set j (_text_from_block c1 m)).getD j "" =
      _text_from_block c1 m := by
    rw [List.getD_eq_getElem?_getD,
      List.getElem?_set_self (by rw [List.length_replicate]; omega), Option.getD_some]
  have hp2 := placeCell_ok m _ c2 r j _ h2r h2c (by rw [hg1len]; omega) hrow1
    (by rw [hrow1len]; omega)
  rw [hcur1] at hp2
  refine ⟨((List.replicate (r + 1) (List.replicate (j + 1) "")).set r
      ((List.replicate (j + 1) "").set j (_text_from_block c1 m))).set r
      (((List.replicate (j + 1) "").set j (_text_from_block c1 m)).set j
        (if _text_from_block c1 m ≠ ""
         then pyStrip (_text_from_block c1 m ++ " | " ++ _text_from_block c2 m)
         else _text_from_block c2 m)), ?_, ?_⟩
  · unfold buildGrid
    rw [hmaxR, except_bind_ok, hmaxC, except_bind_ok, htnR, htnC,
      List.foldlM_cons, hp1, except_bind_ok, List.foldlM_cons, hp2, except_bind_ok,
      List.foldlM_nil, except_pure_eq]
  · exact posAt_set_self _ r j _ _ (by rw [hg1len]; omega) (by rw [hrow1len]; omega)
/-- Claim C1 counterexample: a KEY with two VALUE relationship entries, both
resolvable ("One" and "Two" respectively), yields the value text "Two" —
the last resolvable entry, not the first as the claim states. -/
theorem c1_first_entry_counterexample :
    parse_kv_pairs c1Blocks = [("", "Two")]
      ∧ _text_from_block c1Val1 (_block_map c1Blocks) = "One"
      ∧ _text_from_block c1Val2 (_block_map c1Blocks) = "Two"
      ∧ ("Two" : String) ≠ "One" :=
  ⟨by decide, by decide, by decide, by decide⟩

/-- Claim C1 (amended): `parse_kv_pairs` takes each pair's value text from
the LAST VALUE relationship entry that has a resolvable target (within
that entry, the first resolvable target), reduced via the text reducer;
entries whose targets are all unresolvable leave the previous value. -/
theorem c1_value_from_last_resolvable_entry
    (id_map value_by_id : String → Option Block) (k : Block) :
    valTextOf id_map value_by_id k
      = ((lastResolvableValue value_by_id (k.relationships.getD [])).map
          (fun b => _text_from_block b id_map)).getD "" :=
  valTextOf_eq_last id_map value_by_id k

/-- Claim C2 (code bug): on a TABLE whose only CELL child lacks RowIndex
and ColumnIndex, `parse_tables` raises IndexError (the grid is sized with
default index 0 but placement uses default index 1), contradicting the
documented no-fatal-exception policy; the other two reconstructors return
normally on the same input. -/
theorem c2_missing_cell_indices_crash :
    parse_tables c2Blocks = Except.error "list index out of range"
      ∧ parse_kv_pairs c2Blocks = [] ∧ extract_lines c2Blocks = "" :=
  ⟨by decide, by decide, rfl⟩

/-- Claim C3 counterexample: two CELL blocks collide at (1,1), the earlier
one reducing to "" and the later to "B"; the resulting grid cell is "B",
not the " | "-join ("| B" after strip) the claim requires for every
collision including an empty earlier text. -/
theorem c3_empty_collision_counterexample :
    parse_tables c3Blocks
        = Except.ok [⟨[ColLabel.nat 0], [["B"]]⟩]
      ∧ pyStrip ("" ++ " | " ++ "B") = "| B"
      ∧ ("B" : String) ≠ "| B" :=
  ⟨by decide, by decide, by decide⟩

/-- Claim C3 witness: colliding cells reducing to "A" and "B" produce the
grid cell "A | B". -/
theorem c3_collision_concat_witness :
    ∃ g, buildGrid (_block_map c3WordBlocks) [c3CellA, c3CellB] = Except.ok g
      ∧ posAt g 0 0 = "A | B" := by
  obtain ⟨g, hg, hpos⟩ := c3_collision_concat (_block_map c3WordBlocks) c3CellA c3CellB 0 0
    (by decide) (by decide) (by decide) (by decide)
  refine ⟨g, hg, ?_⟩
  rw [hpos]
  decide

/-- Claim C4 counterexample: a one-row table is emitted with the pandas
default integer column label 0, not the positional label "Col1" the claim
states. -/
theorem c4_positional_labels_counterexample :
    parse_tables c4Blocks = Except.ok [⟨[ColLabel.nat 0], [["A"]]⟩]
      ∧ ColLabel.nat 0 ≠ ColLabel.str "Col1" :=
  ⟨by decide, by decide⟩

/-- Claim C4 (amended): with more than one row and a non-empty cell in the
first row, the first row is promoted to column headers (empty header cells
synthesized as Col with the 1-based index) and removed from the data rows;
otherwise the grid is emitted unmodified with the pandas default integer
column labels 0, 1, 2, ... . -/
theorem c4_header_promotion (first : List String) (rest : List (List String)) :
    (rest ≠ [] → first.any (fun x => decide (0 < x.length)) = true →
      promote (mkDataFrame (first :: rest)) = ⟨specHeaderLabels first, rest⟩)
    ∧ ((rest = [] ∨ first.any (fun x => decide (0 < x.length)) = false) →
      promote (mkDataFrame (first :: rest))
        = ⟨(List.range first.length).map ColLabel.nat, first :: rest⟩) := by
  constructor
  · intro hrest hany
    show (if 0 < rest.length ∧ first.any (fun x => decide (0 < x.length)) = true then _ else _)
      = (⟨specHeaderLabels first, rest⟩ : DataFrame)
    rw [if_pos ⟨List.length_pos.mpr hrest, hany⟩]
    have hcols : first.enum.map
        (fun p => ColLabel.str (if p.2 ≠ "" then p.2 else "Col" ++ toString (p.1 + 1)))
        = specHeaderLabels first := by
      unfold specHeaderLabels
      apply List.map_congr_left
      intro p _
      by_cases hp : p.2 = "" <;> simp [hp]
    rw [hcols]
  · intro h
    show (if 0 < rest.length ∧ first.any (fun x => decide (0 < x.length)) = true then _ else _)
      = (⟨(List.range first.length).map ColLabel.nat, first :: rest⟩ : DataFrame)
    rcases h with h | h
    · subst h
      rw [if_neg (by simp)]
      rfl
    · rw [if_neg (by simp [h])]
      rfl

/-- Claim C4 witness: the spec's example — header promotion of
Name/Age over Jane/30, and a one-row grid left unmodified. -/
theorem c4_header_promotion_witness :
    promote (mkDataFrame [["Name", "Age"], ["Jane", "30"]])
        = ⟨[ColLabel.str "Name", ColLabel.str "Age"], [["Jane", "30"]]⟩
      ∧ promote (mkDataFrame [["A"]]) = ⟨[ColLabel.nat 0], [["A"]]⟩ := by
  constructor
  · rw [(c4_header_promotion ["Name", "Age"] [["Jane", "30"]]).1 (by decide) (by decide)]
    decide
  · rw [(c4_header_promotion ["A"] []).2 (Or.inl rfl)]
    decide

/-- Claim C5: the reduced text of a block is the space-join, in CHILD
relationship-entry order, of one token per resolved child — the text of a
WORD child with non-empty text, "[X]"/"[ ]" for SELECTION_ELEMENT children
by selection status, nothing for other types — with unresolvable children
skipped and the result trimmed; on the example children
WORD "Hello", SELECTION_ELEMENT SELECTED, WORD "World" it yields
"Hello [X] World". -/
theorem c5_reduce_text_correct :
    (∀ (block : Block) (id_map : String → Option Block),
      _text_from_block block id_map = reduce_text_spec block id_map)
    ∧ _text_from_block c5Parent (_block_map c5Blocks) = "Hello [X] World" :=
  ⟨text_from_block_eq_spec, by decide⟩
/-- Claim C6: for cells carrying 1-based indices at pairwise-distinct
coordinates, the grid has exactly max(RowIndex) rows and max(ColumnIndex)
columns, each cell's reduced text sits at (RowIndex-1, ColumnIndex-1),
undeclared positions hold "", and `parse_tables` emits exactly one
DataFrame per TABLE with at least one resolvable CELL child (tables with
none are omitted entirely). -/
theorem c6_table_grid :
    (∀ (m : String → Option Block) (cells : List Block),
      cells ≠ [] →
      (∀ c ∈ cells, ∃ r j : Nat, c.rowIndex = some ((r : Int) + 1)
        ∧ c.columnIndex = some ((j : Int) + 1)) →
      List.Pairwise
        (fun a b => ¬(a.rowIndex = b.rowIndex ∧ a.columnIndex = b.columnIndex)) cells →
      ∃ g R C, pyMax (cells.map (fun c => c.rowIndex.getD 0)) = Except.ok R
        ∧ pyMax (cells.map (fun c => c.columnIndex.getD 0)) = Except.ok C
        ∧ buildGrid m cells = Except.ok g
        ∧ g.length = R.toNat
        ∧ (∀ row ∈ g, row.length = C.toNat)
        ∧ (∀ c ∈ cells, ∀ r j : Nat, c.rowIndex = some ((r : Int) + 1) →
            c.columnIndex = some ((j : Int) + 1) → posAt g r j = _text_from_block c m)
        ∧ (∀ i j : Nat, (∀ c ∈ cells, ¬(c.rowIndex = some ((i : Int) + 1)
            ∧ c.columnIndex = some ((j : Int) + 1))) → posAt g i j = ""))
    ∧ (∀ (all_blocks : List Block) (dfs : List DataFrame),
        parse_tables all_blocks = Except.ok dfs →
        dfs.length = ((all_blocks.filter
            (fun b => decide (b.blockType = some "TABLE"))).filter
          (fun t => decide (resolveCells (_block_map all_blocks) t ≠ []))).length) :=
  ⟨buildGrid_ok, parse_tables_len⟩

/-- Claim C6 witness: the spec's example — cells (1,1)="A", (1,2)="B",
(2,1)="C" give a 2-by-2 grid with "" at (2,2), and on the full block
collection `parse_tables` emits exactly one DataFrame. -/
theorem c6_table_grid_witness :
    (∃ g R C, pyMax ([c6Cell1, c6Cell2, c6Cell3].map (fun c => c.rowIndex.getD 0))
        = Except.ok R
      ∧ pyMax ([c6Cell1, c6Cell2, c6Cell3].map (fun c => c.columnIndex.getD 0))
        = Except.ok C
      ∧ buildGrid (_block_map c6Blocks) [c6Cell1, c6Cell2, c6Cell3] = Except.ok g
      ∧ g.length = R.toNat
      ∧ (∀ row ∈ g, row.length = C.toNat)
      ∧ (∀ c ∈ [c6Cell1, c6Cell2, c6Cell3], ∀ r j : Nat,
          c.rowIndex = some ((r : Int) + 1) → c.columnIndex = some ((j : Int) + 1) →
          posAt g r j = _text_from_block c (_block_map c6Blocks))
      ∧ (∀ i j : Nat, (∀ c ∈ [c6Cell1, c6Cell2, c6Cell3],
          ¬(c.rowIndex = some ((i : Int) + 1) ∧ c.columnIndex = some ((j : Int) + 1))) →
          posAt g i j = ""))
    ∧ (∃ dfs : List DataFrame, parse_tables c6Blocks = Except.ok dfs ∧ dfs.length = 1) := by
  constructor
  · refine c6_table_grid.1 (_block_map c6Blocks) [c6Cell1, c6Cell2, c6Cell3] (by decide) ?_ ?_
    · intro c hc
      simp only [List.mem_cons, List.not_mem_nil, or_false] at hc
      rcases hc with rfl | rfl | rfl
      · exact ⟨0, 0, by decide, by decide⟩
      · exact ⟨0, 1, by decide, by decide⟩
      · exact ⟨1, 0, by decide, by decide⟩
    · decide
  · have h : parse_tables c6Blocks
        = Except.ok [⟨[ColLabel.str "A", ColLabel.str "B"], [["C", ""]]⟩] := by decide
    refine ⟨_, h, ?_⟩
    rw [c6_table_grid.2 c6Blocks _ h]
    decide

/-- Claim C7: `parse_kv_pairs` emits each (key, value) pair at most once —
exactly-equal later pairs are dropped, the first occurrence is kept, and
the order of first occurrences is preserved; two KEY blocks both reducing
to ("Name", "Jane") yield exactly one entry. -/
theorem c7_dedup_first_occurrence :
    (∀ all_blocks : List Block,
      parse_kv_pairs all_blocks = firstOccurrences (raw_pairs all_blocks)
      ∧ (parse_kv_pairs all_blocks).Nodup)
    ∧ parse_kv_pairs c7Blocks = [("Name", "Jane")] := by
  refine ⟨fun all_blocks => ⟨?_, ?_⟩, by decide⟩
  · exact dedupKeepFirst_eq_firstOccurrences _
  · exact dedupGo_nodup _ [] List.nodup_nil

/-- Claim C8: a KEY-role block whose VALUE relationship entries have no
resolvable target and whose reduced key text is non-empty still
contributes the pair (key text, "") to `parse_kv_pairs`. -/
theorem c8_key_without_value (all_blocks : List Block) (k : Block)
    (hk : k ∈ kv_keys all_blocks)
    (hnoval : ∀ rel ∈ k.relationships.getD [], rel.type = some "VALUE" →
      firstResolvable (dictOf (kv_values all_blocks)) (rel.ids.getD []) = none)
    (hkey : _text_from_block k (_block_map all_blocks) ≠ "") :
    (_text_from_block k (_block_map all_blocks), "") ∈ parse_kv_pairs all_blocks := by
  have hval := valTextOf_empty (_block_map all_blocks) (dictOf (kv_values all_blocks)) k hnoval
  have hraw := mem_raw_pairs all_blocks k hk (Or.inl hkey)
  rw [hval] at hraw
  exact mem_dedupGo (raw_pairs all_blocks) [] _ (Or.inr hraw)

/-- Claim C8 witness: a KEY reducing to "Name" with no VALUE relationship
yields ("Name", ""). -/
theorem c8_key_without_value_witness : ("Name", "") ∈ parse_kv_pairs c8Blocks := by
  have h := c8_key_without_value c8Blocks c8Key (by decide) (by decide) (by decide)
  exact (show _text_from_block c8Key (_block_map c8Blocks) = "Name" by decide) ▸ h

/-- Claim C9: `extract_lines` is the newline-join of the texts of LINE
blocks with non-empty text in encounter order, with no de-duplication;
LINE texts "A", "B", "A" (with an index-less and an empty-text LINE
interleaved) yield "A\nB\nA". -/
theorem c9_line_aggregation :
    (∀ all_blocks : List Block, extract_lines all_blocks = aggregate_lines_spec all_blocks)
    ∧ extract_lines c9Blocks = "A\nB\nA" :=
  ⟨extract_lines_eq_spec, by decide⟩

/-- Claim C10: each reconstructor is a pure deterministic function of the
block collection — equal inputs give equal outputs. -/
theorem c10_determinism (b1 b2 : List Block) (h : b1 = b2) :
    extract_lines b1 = extract_lines b2
      ∧ parse_kv_pairs b1 = parse_kv_pairs b2
      ∧ parse_tables b1 = parse_tables b2 := by
  subst h
  exact ⟨rfl, rfl, rfl⟩

/-- Claim C10 witness: determinism instantiated at a concrete collection. -/
theorem c10_determinism_witness :
    extract_lines c7Blocks = extract_lines c7Blocks
      ∧ parse_kv_pairs c7Blocks = parse_kv_pairs c7Blocks
      ∧ parse_tables c7Blocks = parse_tables c7Blocks :=
  c10_determinism c7Blocks c7Blocks rfl

end PolicyReviewer
